import Mathlib

/-!
Verification of snapstream (Menziess/snapstream) against its specification.

Shallow embedding of `snapstream/core.py` and `snapstream/__init__.py`:

* Python ints are `Int`; Python `%` is floor-mod (`Int.fmod`); `None`-able
  ints are `Option Int`, with Python truthiness (`None` and `0` falsy).
* A topic freshly seeked to the start delivers its messages in offset order
  `0, 1, ...`; the consumer loop of `Topic.__getitem__` is a function on the
  list of polled offsets.
* Threaded code (`Conf.distribute_messages` / `Conf.start`) is modelled by
  the sequence of single-slot-queue puts each worker performs and a
  coordinator consuming an arbitrary order-preserving interleaving of them.
* Fallible paths return `Except PyErr _`.
-/

namespace Snapstream

/-- Python-level exception classes observed by the embedded code paths. -/
inductive PyErr where
  | typeError
  | valueError
  | attributeError
  | runtimeError
deriving DecidableEq, Repr

/-- Python truthiness of an optional int: `None` and `0` are falsy. -/
def truthy : Option Int → Bool
  | none => false
  | some v => v != 0

/-- The argument of `Topic.__getitem__`: an int or a slice (other types raise
TypeError before the part modelled here). A slice carries `start`, `stop`,
`step`, each possibly `None`. -/
inductive Ix where
  | int (i : Int)
  | slice (startA stopA stepA : Option Int)

/-- The `(start, step, stop)` triple bound at the top of `Topic.__getitem__`
(core.py:368-376): an int `i` becomes `(i, None, i + 1 if i >= 0 else None)`,
a slice contributes `(i.start, i.step, i.stop)`. -/
def getBounds : Ix → Option Int × Option Int × Option Int
  | .int i => (some i, none, if i ≥ 0 then some (i + 1) else none)
  | .slice a b c => (a, c, b)

/-- The message loop of `Topic.__getitem__` (core.py:378-384) over the offsets
the consumer yields, in order:
`if stop and msg.offset() >= stop: return`, then
`if step and (msg.offset() - max(0, start)) % step != 0: continue`,
else `yield msg`. Bounds are tested by truthiness; `max(0, start)` raises
TypeError when `start` is `None` (evaluated only when `step` is truthy);
`%` is Python's floor-mod. -/
def sliceLoop (startB stepB stopB : Option Int) : List Int → Except PyErr (List Int)
  | [] => .ok []
  | o :: rest =>
    if truthy stopB && decide (stopB.getD 0 ≤ o) then .ok []
    else if truthy stepB then
      match startB with
      | none => .error .typeError
      | some a =>
        if (o - max 0 a).fmod (stepB.getD 1) != 0 then sliceLoop startB stepB stopB rest
        else (sliceLoop startB stepB stopB rest).map (o :: ·)
    else (sliceLoop startB stepB stopB rest).map (o :: ·)

/-- `Topic.__getitem__` applied to the offsets of the polled messages of a
topic freshly seeked to the start (offsets arrive increasing from 0); the
result is the list of offsets of the yielded messages. -/
def getitem (ix : Ix) (offsets : List Int) : Except PyErr (List Int) :=
  sliceLoop (getBounds ix).1 (getBounds ix).2.1 (getBounds ix).2.2 offsets

/-- Modelled from the spec: the claimed result of `topic[a:b:c]` — exactly
the offsets in the set of a, a+c, a+2c, ... intersected with the interval
from a inclusive to b exclusive. Used only to compare against `getitem`. -/
def specSliceYields (a b c : Int) (offsets : List Int) : List Int :=
  offsets.filter fun o => decide (a ≤ o) && decide (o < b) && ((o - a).fmod c == 0)

/-- A registered source as a worker iterates it: the elements successfully
pulled, then optionally the exception that ended iteration. -/
structure Source (α ε : Type) where
  elems : List α
  err : Option ε
deriving DecidableEq

/-- An item put on `Conf.start`'s single-slot queue: an exception object, or
`None` (the completion sentinel). -/
inductive QItem (ε : Type) where
  | exc (e : ε)
  | nil
deriving DecidableEq

/-- The queue puts performed by `Conf.distribute_messages` (core.py:50-62) for
one source: on an exception the worker puts the exception object, and in its
`finally` it always puts `None`. -/
def workerPuts {α ε : Type} (w : Source α ε) : List (QItem ε) :=
  (match w.err with
   | some e => [QItem.exc e]
   | none => []) ++ [QItem.nil]

/-- The messages a worker publishes on the bus before stopping: every element
pulled up to (not including) the exception, in iteration order. -/
def workerPublished {α ε : Type} (w : Source α ε) : List α :=
  w.elems

/-- `Merge xs ys zs`: `zs` is an order-preserving merge of `xs` and `ys`. -/
inductive Merge {β : Type} : List β → List β → List β → Prop where
  | nil : Merge [] [] []
  | left {x : β} {xs ys zs : List β} : Merge xs ys zs → Merge (x :: xs) ys (x :: zs)
  | right {y : β} {xs ys zs : List β} : Merge xs ys zs → Merge xs (y :: ys) (y :: zs)

/-- `Interleaving ls out`: `out` is an order-preserving interleaving of the
lists in `ls` — the possible orders in which the workers' queue puts reach the
coordinator (each worker's own puts stay in order; the single-slot queue is
FIFO, so the coordinator sees some such interleaving). -/
inductive Interleaving {β : Type} : List (List β) → List β → Prop where
  | nil : Interleaving [] []
  | cons {l : List β} {ls : List (List β)} {rest out : List β} :
      Merge l rest out → Interleaving ls rest → Interleaving (l :: ls) out

/-- The coordinator loop of `Conf.start` (core.py:80-82): repeatedly
`queue.get()`; the first non-`None` item is raised (`some e`); if only `None`
sentinels arrive the loop ends and the call returns normally (`none`). -/
def firstExc {ε : Type} : List (QItem ε) → Option ε
  | [] => none
  | .exc e :: _ => some e
  | .nil :: rest => firstExc rest

/-- A Python value in the producer lifecycle of `Topic`: the generator context
manager returned by `Topic._get_producer` (core.py:344-350) — whose
`__exit__` runs the code after the yield, `self._producer.flush(self.flush_timeout)`
— or the produce closure it yields, a plain function object that has no
`__exit__` attribute. -/
inductive ProdVal where
  | ctxManager (flushTimeout : Int)
  | produceFn
deriving DecidableEq, Repr

/-- `__enter__` on the generator context manager runs `_get_producer` up to its
yield and returns the yielded produce closure. -/
def ctxEnter : ProdVal → ProdVal
  | .ctxManager _ => .produceFn
  | .produceFn => .produceFn

/-- The producer-side state of a `Topic`: its configured flush timeout and the
`_producer_ctx` attribute (initially `None`). -/
structure TopicProd where
  flushTimeout : Int
  producerCtx : Option ProdVal
deriving DecidableEq, Repr

/-- `Topic.__call__` (core.py:386-390): on the first call it stores
`self._get_producer().__enter__()` — the yielded produce closure, not the
context manager object — in `self._producer_ctx`, then invokes it. -/
def topicCall (t : TopicProd) : TopicProd :=
  match t.producerCtx with
  | none => { t with producerCtx := some (ctxEnter (.ctxManager t.flushTimeout)) }
  | some _ => t

/-- What `Topic.__del__` achieves. -/
inductive DelResult where
  | flushed (timeout : Int)
  | attributeError
  | noop
deriving DecidableEq, Repr

/-- `Topic.__del__` (core.py:392-395):
`if self._producer_ctx: self._producer_ctx.__exit__(None, None, None)`.
Looking up `__exit__` on the stored value: a context manager has it (running
the flush with the configured timeout); a plain function does not, so the
lookup raises AttributeError and no flush happens. -/
def topicDel (t : TopicProd) : DelResult :=
  match t.producerCtx with
  | none => .noop
  | some (.ctxManager ft) => .flushed ft
  | some .produceFn => .attributeError

/-- A confluent-kafka consumer handle: its identity and whether `.close()` has
been called on it. -/
structure KConsumer where
  id : Nat
  closed : Bool
deriving DecidableEq, Repr

/-- The consumer-side state of a `Topic`: the `_consumer` attribute (initially
`None`) and an id supply for newly constructed handles. -/
structure TopicCons where
  consumer : Option KConsumer
  nextId : Nat
deriving DecidableEq, Repr

/-- `self._consumer = self._consumer or Consumer(self.conf, logger=logger)` in
`Topic._get_consumer` (core.py:325): a consumer object is truthy even after
`.close()`, so any cached handle — including a closed one — is reused; only
when the attribute is still `None` is a fresh handle constructed. -/
def acquireConsumer (t : TopicCons) : KConsumer × TopicCons :=
  match t.consumer with
  | some c => (c, t)
  | none =>
    let c : KConsumer := { id := t.nextId, closed := false }
    (c, { consumer := some c, nextId := t.nextId + 1 })

/-- `Consumer.subscribe` on an already-closed confluent-kafka handle raises
RuntimeError. -/
def subscribeConsumer (c : KConsumer) : Except PyErr Unit :=
  if c.closed then .error .runtimeError else .ok ()

/-- One iteration context of `Topic.__iter__` / `Topic.__getitem__`
(core.py:322-342): enter `_get_consumer` (acquire the handle, subscribe), and
in the `finally` call `self._consumer.close()`; the `_consumer` attribute is
never reset, so it keeps pointing at the closed handle afterwards. Returns the
handle this iteration used, the subscribe outcome, and the topic state after
the iteration context exits. -/
def iterateOnce (t : TopicCons) : (KConsumer × Except PyErr Unit) × TopicCons :=
  let (c, t1) := acquireConsumer t
  ((c, subscribeConsumer c), { t1 with consumer := some { c with closed := true } })

/-- The registry singleton's mutable state: the registered
(identity, iterable) pairs. -/
structure Registry (α ε : Type) where
  iterables : List (Nat × Source α ε)

/-- How the wait of `Conf.start` (core.py:75-84) ends: all workers completed,
a worker's exception arrived on the queue, or a KeyboardInterrupt hit the
coordinating thread while it was blocked. -/
inductive WaitOutcome (ε : Type) where
  | completed
  | workerRaised (e : ε)
  | interrupted
deriving DecidableEq

/-- How the `Conf.start` call itself ends for its caller. -/
inductive StartResult (ε : Type) where
  | returned
  | raised (e : ε)
  | systemExitRaised
deriving DecidableEq

/-- The exception structure of `Conf.start` (core.py:75-86): a worker
exception from the queue is re-raised; `except KeyboardInterrupt: exit()`
handles an interrupt by calling `exit()`, which raises SystemExit (the call
never returns normally and the process terminates); the `finally` sets
`self.iterables = set()` on every path before the call ends. -/
def startModel {α ε : Type} (_reg : Registry α ε) (o : WaitOutcome ε) :
    StartResult ε × Registry α ε :=
  (match o with
   | .completed => .returned
   | .workerRaised e => .raised e
   | .interrupted => .systemExitRaised,
   { iterables := [] })

/-- The classes `_sink_output` (snapstream/__init__.py:25-32) distinguishes
with `isinstance`: the key-value store, a `Topic`, or any other callable. -/
inductive Sink where
  | cache
  | topic
  | fn
deriving DecidableEq, Repr

/-- `isinstance(s, (Cache))`. -/
def Sink.isCache : Sink → Bool
  | .cache => true
  | _ => false

/-- `isinstance(s, (Cache, Topic))`. -/
def Sink.isCacheOrTopic : Sink → Bool
  | .cache => true
  | .topic => true
  | .fn => false

/-- A handler output value: a tuple (with its elements) or anything else. -/
inductive Output (κ : Type) where
  | tup (elems : List κ)
  | scalar (v : κ)
deriving DecidableEq, Repr

/-- `isinstance(output, tuple)`. -/
def Output.isTuple {κ : Type} : Output κ → Bool
  | .tup _ => true
  | .scalar _ => false

/-- The single call `_sink_output` makes on the sink. -/
inductive SinkCall (κ : Type) where
  | kv (key val : κ)
  | unary (v : Output κ)
deriving DecidableEq, Repr

/-- `_sink_output(s, output)` (snapstream/__init__.py:25-32): raise ValueError
for a non-tuple routed to the key-value store; for a tuple routed to the
key-value store or a `Topic`, `key, val = output` (a Python unpack, which
raises ValueError unless the tuple has exactly two elements) then
`s(key=key, val=val)`; otherwise `s(output)`. -/
def sinkOutput {κ : Type} (s : Sink) (o : Output κ) : Except PyErr (SinkCall κ) :=
  if !o.isTuple && s.isCache then .error .valueError
  else if o.isTuple && s.isCacheOrTopic then
    match o with
    | .tup [k, v] => .ok (.kv k v)
    | _ => .error .valueError
  else .ok (.unary o)

/-- The parameter kinds Python's `inspect.signature` reports. -/
inductive ParamKind where
  | positionalOnly
  | positionalOrKeyword
  | varPositional
  | keywordOnly
  | varKeyword
deriving DecidableEq, Repr

/-- `p.kind == p.VAR_KEYWORD`. -/
def ParamKind.isVarKeyword : ParamKind → Bool
  | .varKeyword => true
  | _ => false

/-- The call shape the dispatcher uses for the wrapped handler. -/
inductive HandlerCall (μ κ : Type) where
  | withKwargs (msg : μ) (kwargs : κ)
  | msgOnly (msg : μ)
  | noArgs
deriving DecidableEq

/-- The dispatch of `snap._deco._handler` (snapstream/__init__.py:64-73):
if any declared parameter is a catch-all keyword parameter, call
`f(msg, **kwargs)`; elif the parameter list is non-empty (truthy), call
`f(msg)`; else call `f()`. -/
def handlerDispatch {μ κ : Type} (params : List ParamKind) (msg : μ) (kwargs : κ) :
    HandlerCall μ κ :=
  if params.any ParamKind.isVarKeyword then .withKwargs msg kwargs
  else if !params.isEmpty then .msgOnly msg
  else .noArgs

/-- The externally visible actions of the produce closure. -/
inductive ProduceEvent (κ γ : Type) where
  | warned
  | produced (key : κ) (val : γ)
  | polled
deriving DecidableEq

/-- The produce closure built by `_producer_handler` (core.py:215-233): encode
`val` with the codec when one is set; if `dry`, log the warning and return
without any delivery attempt; otherwise `p.produce(...)` then
`p.poll(poll_timeout)`. Returns the events performed and the value as last
computed (post-codec). -/
def produceClosure {κ γ : Type} (codec : Option (γ → γ)) (dry : Bool) (key : κ) (val : γ) :
    List (ProduceEvent κ γ) × γ :=
  let v := match codec with
    | some enc => enc val
    | none => val
  if dry then ([.warned], v)
  else ([.produced key v, .polled], v)

/-! ## Helper lemmas -/

theorem merge_mem {β : Type} {xs ys zs : List β} (h : Merge xs ys zs) (z : β) :
    z ∈ zs ↔ z ∈ xs ∨ z ∈ ys := by
  induction h with
  | nil => simp
  | left _ ih =>
    simp only [List.mem_cons, ih]
    tauto
  | right _ ih =>
    simp only [List.mem_cons, ih]
    tauto

theorem interleaving_mem {β : Type} {ls : List (List β)} {out : List β}
    (h : Interleaving ls out) (z : β) :
    z ∈ out ↔ ∃ l ∈ ls, z ∈ l := by
  induction h with
  | nil => simp
  | cons hm _ ih =>
    rw [merge_mem hm, ih]
    simp only [List.mem_cons]
    constructor
    · rintro (hz | ⟨l', hl', hz⟩)
      · exact ⟨_, Or.inl rfl, hz⟩
      · exact ⟨l', Or.inr hl', hz⟩
    · rintro ⟨l', (rfl | hl'), hz⟩
      · exact Or.inl hz
      · exact Or.inr ⟨l', hl', hz⟩

theorem firstExc_all_nil {ε : Type} {s : List (QItem ε)}
    (h : ∀ q ∈ s, q = QItem.nil) : firstExc s = none := by
  induction s with
  | nil => rfl
  | cons q rest ih =>
    have hq := h q (List.mem_cons_self _ _)
    subst hq
    exact ih fun q hq => h q (List.mem_cons_of_mem _ hq)

theorem firstExc_exc {ε : Type} {s : List (QItem ε)} {e : ε}
    (hmem : QItem.exc e ∈ s) (hall : ∀ e', QItem.exc e' ∈ s → e' = e) :
    firstExc s = some e := by
  induction s with
  | nil => cases hmem
  | cons q rest ih =>
    cases q with
    | exc e' =>
      have he : e' = e := hall e' (List.mem_cons_self _ _)
      subst he
      rfl
    | nil =>
      have hmem' : QItem.exc e ∈ rest := by
        rcases List.mem_cons.1 hmem with h | h
        · exact QItem.noConfusion h
        · exact h
      exact ih hmem' fun e' h' => hall e' (List.mem_cons_of_mem _ h')

theorem firstExc_mem {ε : Type} {s : List (QItem ε)} {e : ε}
    (h : firstExc s = some e) : QItem.exc e ∈ s := by
  induction s with
  | nil => exact Option.noConfusion h
  | cons q rest ih =>
    cases q with
    | exc e' =>
      have h' : some e' = some e := h
      injection h' with h''
      subst h''
      exact List.mem_cons_self _ _
    | nil => exact List.mem_cons_of_mem _ (ih h)

theorem exc_mem_workerPuts {α ε : Type} {w : Source α ε} {e : ε} (h : w.err = some e) :
    QItem.exc e ∈ workerPuts w := by
  simp [workerPuts, h]

theorem mem_workerPuts {α ε : Type} {w : Source α ε} {q : QItem ε}
    (h : q ∈ workerPuts w) : q = QItem.nil ∨ ∃ e, w.err = some e ∧ q = QItem.exc e := by
  unfold workerPuts at h
  cases herr : w.err with
  | none =>
    rw [herr] at h
    simp at h
    exact Or.inl h
  | some e =>
    rw [herr] at h
    simp at h
    rcases h with rfl | rfl
    · exact Or.inr ⟨e, rfl, rfl⟩
    · exact Or.inl rfl

theorem sliceLoop_stop_zero (startB stepB : Option Int) (l : List Int) :
    sliceLoop startB stepB (some 0) l = sliceLoop startB stepB none l := by
  induction l with
  | nil => rfl
  | cons o rest ih =>
    show (if truthy stepB then _ else _) = (if truthy stepB then _ else _)
    rw [ih]

theorem sliceLoop_step_zero (startB stopB : Option Int) (l : List Int) :
    sliceLoop startB (some 0) stopB l = sliceLoop startB none stopB l := by
  induction l with
  | nil => rfl
  | cons o rest ih =>
    show (if truthy stopB && decide (stopB.getD 0 ≤ o) then Except.ok []
          else (sliceLoop startB (some 0) stopB rest).map (o :: ·)) =
         (if truthy stopB && decide (stopB.getD 0 ≤ o) then Except.ok []
          else (sliceLoop startB none stopB rest).map (o :: ·))
    rw [ih]

theorem sliceLoop_no_bounds (startB : Option Int) (l : List Int) :
    sliceLoop startB none none l = .ok l := by
  induction l with
  | nil => rfl
  | cons o rest ih =>
    show (sliceLoop startB none none rest).map (o :: ·) = .ok (o :: rest)
    rw [ih]
    rfl

/-! ## The claims -/

/-- Claim C1 — the code evaluated at the failing input. On a freshly
seeked-to-start topic holding offsets 0..4, `topic[2:4]` yields the offsets
[0, 1, 2, 3]: `Topic.__getitem__` never skips messages whose offset is below
the slice start, while the spec's result (`specSliceYields`) is [2, 3].
Likewise `topic[1]` yields [0, 1] instead of only offset 1, and `topic[2:6:2]`
yields [0, 2, 4] instead of [2, 4] (the step filter is anchored at
`max(0, start)`, which only makes sense together with the missing skip). -/
theorem getitem_start_not_skipped :
    getitem (.slice (some 2) (some 4) none) [0, 1, 2, 3, 4] = .ok [0, 1, 2, 3]
    ∧ specSliceYields 2 4 1 [0, 1, 2, 3, 4] = [2, 3]
    ∧ getitem (.int 1) [0, 1, 2] = .ok [0, 1]
    ∧ getitem (.slice (some 2) (some 6) (some 2)) [0, 1, 2, 3, 4, 5] = .ok [0, 2, 4]
    ∧ specSliceYields 2 6 2 [0, 1, 2, 3, 4, 5] = [2, 4] := by
  refine ⟨rfl, rfl, rfl, rfl, rfl⟩

/-- Claim C10: `Topic.__getitem__` tests its bounds by truthiness — a slice
whose stop is 0 behaves exactly as if stop were None (no upper bound), a
single negative index computes stop = None so every polled offset is yielded
(no upper bound at all), and a slice whose step is 0 behaves exactly as if
step were None (the modulo filter is skipped, so no division by zero is
raised). -/
theorem getitem_truthy_bounds (a c : Option Int) (b i : Int) (offsets : List Int) :
    getitem (.slice a (some 0) c) offsets = getitem (.slice a none c) offsets
    ∧ (i < 0 → getitem (.int i) offsets = .ok offsets)
    ∧ getitem (.slice a (some b) (some 0)) offsets
        = getitem (.slice a (some b) none) offsets := by
  refine ⟨?_, ?_, ?_⟩
  · exact sliceLoop_stop_zero a c offsets
  · intro hi
    have hb : getBounds (.int i) = (some i, none, none) := by
      simp only [getBounds, if_neg (not_le.mpr hi)]
    simp only [getitem, hb]
    exact sliceLoop_no_bounds (some i) offsets
  · exact sliceLoop_step_zero a (some b) offsets

/-- Witness for C10 at a concrete input: the negative single index -1. -/
theorem getitem_truthy_bounds_witness :
    getitem (.int (-1)) [0, 1] = .ok [0, 1] :=
  (getitem_truthy_bounds none none 0 (-1) [0, 1]).2.1 (by decide)

/-- Claim C2: over every order in which the workers' queue puts can reach the
coordinator of `Conf.start` — any order-preserving interleaving of the
per-worker put sequences — (a) if no registered source raises, the first
non-`None` read never happens and `start` returns normally; (b) if exactly one
source raises `e` (every other source's iteration ends without an exception),
the coordinator raises exactly that exception object `e`; (c) whatever single
exception the coordinator reports came from one of the workers — at most that
one exception crosses to the coordinating call, later failures are never
reported. -/
theorem conf_start_error_propagation {α ε : Type} (workers : List (Source α ε))
    (s : List (QItem ε)) (hI : Interleaving (workers.map workerPuts) s) :
    ((∀ w ∈ workers, w.err = none) → firstExc s = none)
    ∧ (∀ e : ε, (∃ w ∈ workers, w.err = some e) →
        (∀ w ∈ workers, w.err = none ∨ w.err = some e) → firstExc s = some e)
    ∧ (∀ e : ε, firstExc s = some e → ∃ w ∈ workers, w.err = some e) := by
  have hmem : ∀ q : QItem ε, q ∈ s ↔ ∃ l ∈ workers.map workerPuts, q ∈ l :=
    fun q => interleaving_mem hI q
  have hsrc : ∀ q : QItem ε, q ∈ s →
      q = QItem.nil ∨ ∃ w ∈ workers, ∃ e, w.err = some e ∧ q = QItem.exc e := by
    intro q hq
    rcases (hmem q).1 hq with ⟨l, hl, hql⟩
    rcases List.mem_map.1 hl with ⟨w, hw, rfl⟩
    rcases mem_workerPuts hql with hnil | ⟨e, he, hq'⟩
    · exact Or.inl hnil
    · exact Or.inr ⟨w, hw, e, he, hq'⟩
  refine ⟨?_, ?_, ?_⟩
  · intro hnone
    apply firstExc_all_nil
    intro q hq
    rcases hsrc q hq with hnil | ⟨w, hw, e, he, _⟩
    · exact hnil
    · rw [hnone w hw] at he
      exact Option.noConfusion he
  · rintro e ⟨w, hw, hwe⟩ hone
    apply firstExc_exc
    · exact (hmem _).2 ⟨workerPuts w, List.mem_map_of_mem _ hw, exc_mem_workerPuts hwe⟩
    · intro e' h'
      rcases hsrc _ h' with hnil | ⟨w', hw', e'', he'', heq⟩
      · exact QItem.noConfusion hnil
      · injection heq with h2
        rcases hone w' hw' with h0 | h0
        · rw [h0] at he''
          exact Option.noConfusion he''
        · rw [h0] at he''
          injection he'' with h1
          exact h2.trans h1.symm
  · intro e hfe
    rcases hsrc _ (firstExc_mem hfe) with hnil | ⟨w, hw, e', he', heq⟩
    · exact QItem.noConfusion hnil
    · injection heq with h1
      exact ⟨w, hw, by rw [he', h1]⟩

/-- Witness for C2 at a concrete input: two workers, one pulling one element
without error, the other raising exception 7; one concrete interleaving of
their queue puts; the coordinator raises 7. -/
theorem conf_start_error_propagation_witness :
    firstExc [QItem.nil, QItem.exc 7, QItem.nil] = some 7 := by
  have hM1 : Merge [QItem.exc (7 : Nat), QItem.nil] ([] : List (QItem Nat))
      [QItem.exc 7, QItem.nil] := Merge.left (Merge.left Merge.nil)
  have hI1 : Interleaving [[QItem.exc (7 : Nat), QItem.nil]] [QItem.exc 7, QItem.nil] :=
    Interleaving.cons hM1 Interleaving.nil
  have hM0 : Merge [QItem.nil] [QItem.exc (7 : Nat), QItem.nil]
      [QItem.nil, QItem.exc 7, QItem.nil] :=
    Merge.left (Merge.right (Merge.right Merge.nil))
  have hI : Interleaving
      (([⟨[0], none⟩, ⟨[], some 7⟩] : List (Source Nat Nat)).map workerPuts)
      [QItem.nil, QItem.exc 7, QItem.nil] :=
    Interleaving.cons hM0 hI1
  exact (conf_start_error_propagation [⟨[0], none⟩, ⟨[], some 7⟩] _ hI).2.1 7
    (by decide) (by decide)

/-- Claim C3 — the code evaluated at the failing input. A Topic that has
produced at least one message holds in `_producer_ctx` the produce closure
(the value `__enter__` returned), not the context manager, so on discard
`__del__`'s `__exit__` lookup fails with AttributeError and the flush with the
configured timeout never runs; had the context manager been stored, `__del__`
would have run the flush. -/
theorem topic_del_flush_fails :
    topicDel (topicCall { flushTimeout := -1, producerCtx := none }) = .attributeError
    ∧ topicDel { flushTimeout := -1, producerCtx := some (.ctxManager (-1)) }
        = .flushed (-1)
    ∧ topicDel { flushTimeout := -1, producerCtx := none } = .noop := by
  refine ⟨rfl, rfl, rfl⟩

/-- Claim C4 — the code evaluated at the failing input. The first iteration of
a fresh Topic creates handle 0, subscribes successfully, and closes the handle
when the iteration context exits — but `_consumer` keeps pointing at the
closed handle, so a second iteration reuses that same closed handle (id 0, not
a fresh handle 1) and subscribing raises RuntimeError. -/
theorem topic_iterations_reuse_consumer :
    iterateOnce { consumer := none, nextId := 0 }
      = ((⟨0, false⟩, .ok ()), { consumer := some ⟨0, true⟩, nextId := 1 })
    ∧ iterateOnce { consumer := some ⟨0, true⟩, nextId := 1 }
      = ((⟨0, true⟩, .error .runtimeError), { consumer := some ⟨0, true⟩, nextId := 1 }) := by
  refine ⟨rfl, rfl⟩

/-- Claim C5 — the code evaluated at the failing input. A KeyboardInterrupt
during the wait makes `Conf.start` execute `exit()`: the call ends with a
propagating SystemExit rather than a normal return (shown both for an empty
and a non-empty registry). -/
theorem start_keyboard_interrupt_exits :
    (startModel (α := Nat) (ε := Nat) { iterables := [] } .interrupted).1
      = .systemExitRaised
    ∧ (startModel (α := Nat) (ε := Nat) { iterables := [(0, ⟨[1], none⟩)] }
        .interrupted).1 = .systemExitRaised := by
  refine ⟨rfl, rfl⟩

/-- Claim C9: whatever the wait's outcome — normal completion, a worker's
exception re-raised, or a keyboard interrupt — the `finally` of `Conf.start`
leaves the registry's set of registered sources empty. -/
theorem start_clears_iterables {α ε : Type} (reg : Registry α ε) (o : WaitOutcome ε) :
    ((startModel reg o).2).iterables = [] := rfl

/-- Claim C6 counterexample: a 3-element tuple routed to a Topic sink is not
"every other case" — `_sink_output` enters the tuple branch, `key, val =
output` fails, and a ValueError is raised instead of the claimed plain unary
call. -/
theorem sink_output_triple_counterexample :
    sinkOutput (κ := Nat) .topic (.tup [1, 2, 3]) = .error .valueError
    ∧ sinkOutput (κ := Nat) .topic (.tup [1, 2, 3]) ≠ .ok (.unary (.tup [1, 2, 3])) :=
  ⟨rfl, fun h => Except.noConfusion h⟩

/-- Claim C6 as amended: a 2-element tuple routed to the key-value store or a
Topic gives exactly one `sink(key=key, val=val)` call; a non-tuple routed to
the key-value store raises ValueError without writing; a tuple of any other
length routed to the key-value store or a Topic also raises ValueError
without writing (the unpack fails); in every remaining case — a non-tuple to a
non-key-value sink, or a tuple to a plain-function sink — the sink is invoked
once as `sink(output)`. -/
theorem sink_output_routing {κ : Type} (s : Sink) (o : Output κ) (k v : κ) :
    (o = Output.tup [k, v] → s = Sink.cache ∨ s = Sink.topic →
        sinkOutput s o = .ok (.kv k v))
    ∧ (o.isTuple = false → s = Sink.cache → sinkOutput s o = .error .valueError)
    ∧ (o.isTuple = true → s = Sink.cache ∨ s = Sink.topic →
        (∀ a b : κ, o ≠ Output.tup [a, b]) → sinkOutput s o = .error .valueError)
    ∧ (o.isTuple = false → s ≠ Sink.cache → sinkOutput s o = .ok (.unary o))
    ∧ (o.isTuple = true → s = Sink.fn → sinkOutput s o = .ok (.unary o)) := by
  refine ⟨?_, ?_, ?_, ?_, ?_⟩
  · rintro rfl (rfl | rfl) <;> rfl
  · intro ht hs
    subst hs
    cases o with
    | tup l => simp [Output.isTuple] at ht
    | scalar x => rfl
  · intro ht hs hne
    cases o with
    | scalar x => simp [Output.isTuple] at ht
    | tup l =>
      rcases hs with rfl | rfl <;>
        rcases l with _ | ⟨a, _ | ⟨b, _ | ⟨c, t⟩⟩⟩ <;>
        first
        | rfl
        | exact absurd rfl (hne _ _)
  · intro ht hs
    cases o with
    | tup l => simp [Output.isTuple] at ht
    | scalar x =>
      cases s with
      | cache => exact absurd rfl hs
      | topic => rfl
      | fn => rfl
  · intro ht hs
    subst hs
    cases o with
    | scalar x => simp [Output.isTuple] at ht
    | tup l => rfl

/-- Witness for the amended C6 at a concrete input: the pair (4, 5) routed to
the key-value store is written as `sink(key=4, val=5)`. -/
theorem sink_output_routing_witness :
    sinkOutput (κ := Nat) .cache (.tup [4, 5]) = .ok (.kv 4 5) :=
  (sink_output_routing .cache (.tup [4, 5]) 4 5).1 rfl (Or.inl rfl)

/-- Claim C7: the dispatcher calls a handler that declares a catch-all keyword
parameter as `handler(msg, **run_kwargs)` with the run kwargs passed verbatim;
a handler without one but with at least one declared parameter as
`handler(msg)`; and a handler with no parameters with no arguments. -/
theorem handler_dispatch {μ κ : Type} (params : List ParamKind) (msg : μ) (kwargs : κ) :
    (params.any ParamKind.isVarKeyword = true →
        handlerDispatch params msg kwargs = .withKwargs msg kwargs)
    ∧ (params.any ParamKind.isVarKeyword = false → params ≠ [] →
        handlerDispatch params msg kwargs = .msgOnly msg)
    ∧ (params = [] → handlerDispatch params msg kwargs = .noArgs) := by
  refine ⟨?_, ?_, ?_⟩
  · intro h
    simp [handlerDispatch, h]
  · intro h hne
    cases params with
    | nil => exact absurd rfl hne
    | cons p rest => simp [handlerDispatch, h, List.isEmpty]
  · rintro rfl
    rfl

/-- Witness for C7 at a concrete input: a handler declaring (msg, **kwargs)
receives the message 3 and the kwargs value 7 verbatim. -/
theorem handler_dispatch_witness :
    handlerDispatch [ParamKind.positionalOrKeyword, ParamKind.varKeyword] 3 7
      = .withKwargs 3 7 :=
  (handler_dispatch [ParamKind.positionalOrKeyword, ParamKind.varKeyword] 3 7).1 rfl

/-- Claim C8: calling the produce closure with dry = true performs no delivery
attempt — its only event is the logged warning, never a produce or a poll —
while the value is still codec-encoded when a codec is set (and left as-is
when none is). -/
theorem dry_run_no_delivery {κ γ : Type} (codec : Option (γ → γ)) (key : κ) (val : γ) :
    (produceClosure codec true key val).1 = [.warned]
    ∧ (∀ enc, codec = some enc → (produceClosure codec true key val).2 = enc val)
    ∧ (codec = none → (produceClosure codec true key val).2 = val) := by
  refine ⟨?_, ?_, ?_⟩
  · cases codec <;> rfl
  · rintro enc rfl
    rfl
  · rintro rfl
    rfl

/-- Witness for C8 at a concrete input: dry run with the successor codec
encodes 41 to 42 while emitting only the warning. -/
theorem dry_run_no_delivery_witness :
    (produceClosure (some (· + 1)) true 0 (41 : Nat)).2 = 42 :=
  (dry_run_no_delivery (some (· + 1)) 0 41).2.1 (· + 1) rfl

end Snapstream
